import Mathlib

/-!
# Verification of the `ap-cv` template-matching engine

Shallow embedding of `packages/ap-cv/src/core/template_matching.rs` and
`packages/ap-cv/src/matcher/mod.rs`.

Modelling conventions:
* `f32` pixel / threshold values are embedded as `ℚ`; all concrete values used
  here are small rationals on which `f32` comparison agrees with the rational
  order, and `f32::total_cmp` on such values is the rational order as well.
* An `ImageBuffer<Luma<f32>, Vec<f32>>` (a row-major `Vec<f32>` with a width
  and a height) is embedded as a width, a height and a coordinate-indexed pixel
  function; pixel iteration (`enumerate_pixels`) is row-major, `x` fastest,
  exactly as in the `image` crate.
* The GPU compute kernels live in `shaders/template_matching.wgsl`; the
  dimension bookkeeping, padding, pre-pass and buffer logic around them are in
  the Rust source and are embedded from it.
-/

namespace ApCv

/-- Grayscale `f32` image: `ImageBuffer<Luma<f32>, Vec<f32>>`.  The row-major
pixel vector is modelled as a coordinate-indexed function `pix x y`. -/
structure GrayImage where
  width : Nat
  height : Nat
  pix : Nat → Nat → ℚ

/-- `image.get_pixel(x, y)` (single channel). -/
def GrayImage.getPixel (img : GrayImage) (x y : Nat) : ℚ := img.pix x y

/-- `enumerate_pixels()` of the `image` crate: row-major iteration,
`x` fastest, yielding `(x, y, value)`. -/
def GrayImage.enumeratePixels (img : GrayImage) : List (Nat × Nat × ℚ) :=
  (List.range img.height).flatMap fun y =>
    (List.range img.width).map fun x => (x, y, img.pix x y)

/-- `MatchTemplateMethod` of `core/template_matching.rs`. -/
inductive MatchTemplateMethod where
  | SumOfSquaredDifference
  | SumOfSquaredDifferenceNormed
  | CrossCorrelation
  | CrossCorrelationNormed
  | CorrelationCoefficient
  | CorrelationCoefficientNormed
  deriving DecidableEq, Repr

/-- `MatchTemplateMethod::ALL`. -/
def MatchTemplateMethod.ALL : List MatchTemplateMethod :=
  [.SumOfSquaredDifference, .SumOfSquaredDifferenceNormed,
   .CrossCorrelation, .CrossCorrelationNormed,
   .CorrelationCoefficient, .CorrelationCoefficientNormed]

/-- `is_a_more_match_than_b` of `core/template_matching.rs`: lower is better
for the two sum-of-squared-difference methods, higher is better otherwise. -/
def is_a_more_match_than_b (a b : ℚ) (method : MatchTemplateMethod) : Bool :=
  match method with
  | .SumOfSquaredDifference | .SumOfSquaredDifferenceNormed => a < b
  | _ => a > b

/-- `Match` of `core/template_matching.rs`: `{ location: (u32, u32), value: f32 }`. -/
structure Match where
  location : Nat × Nat
  value : ℚ
  deriving DecidableEq, Repr

/-- `image::math::Rect`. -/
structure Rect where
  x : Nat
  y : Nat
  width : Nat
  height : Nat
  deriving DecidableEq, Repr

/-- The rect-carrying match value built by the matcher layer in
`matcher/mod.rs` (`Match { rect, value }`). -/
structure RectMatch where
  rect : Rect
  value : ℚ
  deriving DecidableEq, Repr

/-- `MatcherOptions` of `matcher/mod.rs`. -/
structure MatcherOptions where
  method : MatchTemplateMethod
  threshold : ℚ
  padding : Bool

/-- `MatcherOptions::default()`. -/
def MatcherOptions.default : MatcherOptions :=
  { method := .SumOfSquaredDifferenceNormed, threshold := 0.2, padding := false }

/-- `MatcherOptions::method_default(method)`. -/
def MatcherOptions.method_default (method : MatchTemplateMethod) : MatcherOptions :=
  let options := MatcherOptions.default
  { options with
    method := method
    threshold :=
      match method with
      | .SumOfSquaredDifference | .CrossCorrelation | .CorrelationCoefficient => 30.0
      | .SumOfSquaredDifferenceNormed => 0.2
      | .CrossCorrelationNormed | .CorrelationCoefficientNormed => 0.8 }

/-- `Extremes` of `imageproc::template_matching` (the crate whose
`find_extremes` is re-exported by `core/template_matching.rs`). -/
structure Extremes where
  max_value : ℚ
  min_value : ℚ
  max_value_location : Nat × Nat
  min_value_location : Nat × Nat
  deriving DecidableEq, Repr

/-- One step of the `find_extremes` linear scan: strictly larger values move
the maximum, strictly smaller values move the minimum (first observed
extremum location is kept). -/
def extremesStep (e : Extremes) (p : Nat × Nat × ℚ) : Extremes :=
  let e1 :=
    if p.2.2 > e.max_value then
      { e with max_value := p.2.2, max_value_location := (p.1, p.2.1) }
    else e
  if p.2.2 < e1.min_value then
    { e1 with min_value := p.2.2, min_value_location := (p.1, p.2.1) }
  else e1

/-- `find_extremes` of `imageproc::template_matching`, re-exported by
`core/template_matching.rs`: a single linear scan over the pixels in row-major
order, starting from pixel `(0, 0)`, tracking the running minimum and maximum
and their first-observed locations. -/
def find_extremes (img : GrayImage) : Extremes :=
  img.enumeratePixels.foldl extremesStep
    ⟨img.getPixel 0 0, img.getPixel 0 0, (0, 0), (0, 0)⟩

/-- The `matches.iter_mut().rev().find(..)` merge step of `find_matches`.
The accumulated match list is kept in reverse insertion order (most recent
first), so the reverse-order search is a head-first search.  Returns `none`
when no accumulated match lies within the `template_w × template_h` box of the
new pixel; otherwise replaces the first (most recent) such match by the new
pixel exactly when the new pixel is strictly more matching. -/
def updateFirstBox (tw th x y : Nat) (v : ℚ) (method : MatchTemplateMethod) :
    List Match → Option (List Match)
  | [] => none
  | m :: rest =>
    if ((m.location.1 : Int) - (x : Int)).natAbs < tw ∧
       ((m.location.2 : Int) - (y : Int)).natAbs < th then
      some ((if is_a_more_match_than_b v m.value method then ⟨(x, y), v⟩ else m) :: rest)
    else
      (updateFirstBox tw th x y v method rest).map (m :: ·)

/-- The per-pixel step of the `find_matches` scan: a pixel more matching than
`threshold` either replaces the most recently accumulated match within a
template-sized box of it (via `updateFirstBox`) or is appended as a new match;
other pixels are skipped. -/
def scanStep (tw th : Nat) (method : MatchTemplateMethod) (threshold : ℚ)
    (acc : List Match) (p : Nat × Nat × ℚ) : List Match :=
  if is_a_more_match_than_b p.2.2 threshold method then
    match updateFirstBox tw th p.1 p.2.1 p.2.2 method acc with
    | some acc2 => acc2
    | none => ⟨(p.1, p.2.1), p.2.2⟩ :: acc
  else acc

/-- `find_matches` of `core/template_matching.rs`: scan the surface in
row-major order accumulating matches via `scanStep` (the accumulator is kept
in reverse insertion order, so it is reversed at the end of the scan); the
result is finally sorted best-first by the same comparator (`sort_by` is a
stable sort, modelled by insertion sort; no property proved below depends on
the relative order of equal-valued matches). -/
def find_matches (input : GrayImage) (template_width template_height : Nat)
    (method : MatchTemplateMethod) (threshold : ℚ) : List Match :=
  let scanned :=
    input.enumeratePixels.foldl (scanStep template_width template_height method threshold) []
  scanned.reverse.insertionSort fun a b => is_a_more_match_than_b a.value b.value method = true

/-- The pixels of a surface, in scan order, that are more matching than the
threshold (the pixels `find_matches` does not skip). -/
def qualifyingPixels (input : GrayImage) (method : MatchTemplateMethod)
    (threshold : ℚ) : List (Nat × Nat × ℚ) :=
  input.enumeratePixels.filter fun p => is_a_more_match_than_b p.2.2 threshold method

/-- The type of the surface-producing engine call
`match_template(image, template, method, padding)`; the policy layer is
parametric in it (the real one dispatches a GPU compute shader). -/
def MatchTemplateFn : Type :=
  GrayImage → GrayImage → MatchTemplateMethod → Bool → GrayImage

/-- `SingleMatcherResult` of `matcher/mod.rs`. -/
structure SingleMatcherResult where
  result : Option RectMatch
  matched_image : GrayImage

/-- `SingleMatcher::match_template` of `matcher/mod.rs`: compute the surface,
find its global extremes, and yield a match only when the relevant extremum
passes the threshold in the method's better-direction. -/
def SingleMatcher.match_template (mt : MatchTemplateFn) (image template : GrayImage)
    (options : MatcherOptions) : SingleMatcherResult :=
  let matched_image := mt image template options.method options.padding
  let extremes := find_extremes matched_image
  let result :=
    match options.method with
    | .SumOfSquaredDifference | .SumOfSquaredDifferenceNormed =>
      if extremes.min_value < options.threshold then
        some { rect := { x := extremes.min_value_location.1, y := extremes.min_value_location.2,
                         width := template.width, height := template.height },
               value := extremes.min_value }
      else none
    | _ =>
      if extremes.max_value > options.threshold then
        some { rect := { x := extremes.max_value_location.1, y := extremes.max_value_location.2,
                         width := template.width, height := template.height },
               value := extremes.max_value }
      else none
  { result := result, matched_image := matched_image }

/-- `MultiMatcherResult` of `matcher/mod.rs`. -/
structure MultiMatcherResult where
  result : List Match
  matched_image : GrayImage

/-- `MultiMatcher::match_template` of `matcher/mod.rs`: compute the surface,
call `find_matches` with the options' threshold, and re-filter the returned
matches against the same threshold. -/
def MultiMatcher.match_template (mt : MatchTemplateFn) (image template : GrayImage)
    (options : MatcherOptions) : MultiMatcherResult :=
  let matched_image := mt image template options.method options.padding
  let result :=
    (find_matches matched_image template.width template.height
        options.method options.threshold).filter fun m =>
      match options.method with
      | .SumOfSquaredDifference | .SumOfSquaredDifferenceNormed =>
        decide (m.value < options.threshold)
      | _ => decide (m.value > options.threshold)
  { result := result, matched_image := matched_image }

/-- `BestMatcherResult` of `matcher/mod.rs`. -/
structure BestMatcherResult where
  result : Option (Nat × RectMatch)
  single_results : List SingleMatcherResult

/-- One step of `Iterator::max_by` with `f32::total_cmp` on the match value:
keep the current maximum; on ties, take the later element. -/
def maxByStep (acc : Option (Nat × RectMatch)) (p : Nat × RectMatch) :
    Option (Nat × RectMatch) :=
  match acc with
  | none => some p
  | some q => if q.2.value > p.2.value then some q else some p

/-- `Iterator::max_by` with `f32::total_cmp` on the match value: a left fold
of `maxByStep` starting from `none`. -/
def maxByValue (l : List (Nat × RectMatch)) : Option (Nat × RectMatch) :=
  l.foldl maxByStep none

/-- `BestMatcher::match_template` of `matcher/mod.rs`: run `SingleMatcher`
once per candidate image, keep the indexed results that produced a match, and
take the maximum by `f32::total_cmp` on the match value. -/
def BestMatcher.match_template (mt : MatchTemplateFn) (images : List GrayImage)
    (template : GrayImage) (options : MatcherOptions) : BestMatcherResult :=
  let single_results := images.map fun img =>
    SingleMatcher.match_template mt img template options
  let result := maxByValue <|
    single_results.enum.filterMap fun p => p.2.result.map fun m => (p.1, m)
  { result := result, single_results := single_results }

/-- The zero-extension padding step of `Matcher::match_template`
(`ImageBuffer::from_fn`): a `(image_w + template_w − 1) × (image_h + template_h − 1)`
image equal to the original inside its bounds and zero beyond them. -/
def padImage (image : GrayImage) (tw th : Nat) : GrayImage :=
  ⟨image.width + tw - 1, image.height + th - 1,
   fun x y => if x ≥ image.width ∨ y ≥ image.height then 0 else image.pix x y⟩

/-- Modelled from the spec: the cross-correlation compute kernel `main_ccorr`
of `shaders/template_matching.wgsl` (the shader file is not among the given
sources); per the spec it computes the raw dot product `Σ(image·template)`
over the template-sized window anchored at `(x, y)`. -/
def ccorrValue (img tmpl : GrayImage) (x y : Nat) : ℚ :=
  ((List.range tmpl.height).map fun dy =>
    ((List.range tmpl.width).map fun dx =>
      img.pix (x + dx) (y + dy) * tmpl.pix dx dy).sum).sum

/-- The dimension and padding plumbing of `Matcher::match_template` around a
per-method compute kernel `K`: optionally pad the image, then produce the
`(eff_w − template_w + 1) × (eff_h − template_h + 1)` surface whose pixel at
`(x, y)` is `K effImage template x y`. -/
def matchTemplateSurface (K : GrayImage → GrayImage → Nat → Nat → ℚ)
    (image template : GrayImage) (padding : Bool) : GrayImage :=
  let image := if padding then padImage image template.width template.height else image
  ⟨image.width - template.width + 1, image.height - template.height + 1,
   fun x y => K image template x y⟩

/-- The uniform averaging kernel of the correlation-coefficient pre-pass:
a `template_w × template_h` image whose every pixel is
`1 / (template_w · template_h)`. -/
def avgKernel (tw th : Nat) : GrayImage :=
  ⟨tw, th, fun _ _ => 1 / ((tw * th : Nat) : ℚ)⟩

/-- One pre-pass averaging call:
`self.match_template(img, &avg_kernel, CrossCorrelation, true)` with the
averaging kernel sized `tw × th`. -/
def localAvg (img : GrayImage) (tw th : Nat) : GrayImage :=
  matchTemplateSurface ccorrValue img (avgKernel tw th) true

/-- The template's per-position local average computed by the pre-pass of the
two `CorrelationCoefficient` variants. -/
def templateLocalAvg (template : GrayImage) : GrayImage :=
  localAvg template template.width template.height

/-- The mean-subtraction pre-pass of `Matcher::match_template`: for the two
`CorrelationCoefficient` variants, subtract the per-position local averages
from the image and the template; other methods pass both through unchanged. -/
def preprocess (image template : GrayImage) (method : MatchTemplateMethod) :
    GrayImage × GrayImage :=
  match method with
  | .CorrelationCoefficient | .CorrelationCoefficientNormed =>
    let avg_image := localAvg image template.width template.height
    let avg_template := templateLocalAvg template
    (⟨image.width, image.height, fun x y => image.pix x y - avg_image.pix x y⟩,
     ⟨template.width, template.height, fun x y => template.pix x y - avg_template.pix x y⟩)
  | _ => (image, template)

/-- `Matcher::match_template` around a per-method kernel `K`: the
mean-subtraction pre-pass (for the correlation-coefficient variants) followed
by padding and the surface computation. -/
def matchTemplateModel (K : GrayImage → GrayImage → Nat → Nat → ℚ)
    (image template : GrayImage) (method : MatchTemplateMethod) (padding : Bool) :
    GrayImage :=
  let p := preprocess image template method
  matchTemplateSurface K p.1 p.2 padding

/-- The arithmetic mean of all pixels of an image. -/
def globalMean (img : GrayImage) : ℚ :=
  (img.enumeratePixels.map fun p => p.2.2).sum / ((img.width * img.height : Nat) : ℚ)

/-- `u32` value of an integer expression under Rust release-mode wrapping
arithmetic (reduction modulo `2^32`). -/
def u32_wrap (n : Int) : Nat := (n % (2 ^ 32 : Int)).toNat

/-- The output-dimension computation of `Matcher::match_template`,
`image_dim - template_dim + 1` on `u32`, as executed with no dimension check:
in release mode the unsigned subtraction wraps modulo `2^32`. -/
def resultDimWrap (image_dim template_dim : Nat) : Nat :=
  u32_wrap ((image_dim : Int) - template_dim + 1)

/-- Outcome of a Rust expression that may `panic!` (e.g. `Option::unwrap` /
`Result::unwrap` on the wrong variant). -/
inductive RustOutcome (α : Type) where
  | ok (a : α)
  | panicked
  deriving DecidableEq, Repr

/-- The readback tail of `Matcher::match_template`.  `signal` is the content
of the one-shot channel fed by the `map_async` callback: `none` when no
completion signal was ever received (`try_recv()` returns `Err`, so the
`.unwrap()` panics), `some (.ok ())` when mapping succeeded (the mapped
staging-buffer bytes `data` are returned), and `some (.error ())` when mapping
failed (a zero-filled vector of length `result_w · result_h` is returned). -/
def readbackResult (signal : Option (Except Unit Unit)) (data : List ℚ)
    (result_w result_h : Nat) : RustOutcome (List ℚ) :=
  match signal with
  | none => .panicked
  | some (.ok ()) => .ok data
  | some (.error ()) => .ok (List.replicate (result_w * result_h) 0)

/-- `Uniforms` of `core/template_matching.rs`. -/
structure Uniforms where
  image_width : Nat
  image_height : Nat
  template_width : Nat
  template_height : Nat
  deriving DecidableEq, Repr

/-- The GPU-resource bookkeeping state of `Matcher`: the byte sizes of the
four lazily (re)allocated data buffers (`none` before first allocation) and
the `Uniforms` value last written to the uniform buffer (`none` before the
first write: the uniform buffer is created uninitialized in `Matcher::new`). -/
structure MatcherBuffers where
  input_size : Option Nat
  template_size : Option Nat
  result_size : Option Nat
  staging_size : Option Nat
  uniforms : Option Uniforms
  deriving DecidableEq, Repr

/-- The buffer state after `Matcher::new`. -/
def MatcherBuffers.initial : MatcherBuffers := ⟨none, none, none, none, none⟩

/-- The update condition shared by `prepare_buffer_init_with_size` and
`prepare_buffer_init_with_image`: (re)allocate iff there is no buffer yet or
its byte size differs from the required one. -/
def bufferNeedsUpdate (buffer : Option Nat) (size : Nat) : Bool :=
  match buffer with
  | none => true
  | some s => s != size

/-- The buffer-preparation section of one `Matcher::match_template` invocation
(after the pre-pass and padding; `iw × ih` are the effective image dimensions
and `tw × th` the template dimensions, in pixels of 4 bytes): each of the four
data buffers is reallocated iff its required byte size changed, and the
`Uniforms` struct is written to the uniform buffer iff at least one buffer was
reallocated. -/
def matcherPrepare (s : MatcherBuffers) (iw ih tw th : Nat) : MatcherBuffers :=
  let rw := iw - tw + 1
  let rh := ih - th + 1
  let imgSz := iw * ih * 4
  let tplSz := tw * th * 4
  let resSz := rw * rh * 4
  let update := bufferNeedsUpdate s.input_size imgSz ||
    bufferNeedsUpdate s.template_size tplSz ||
    bufferNeedsUpdate s.result_size resSz ||
    bufferNeedsUpdate s.staging_size resSz
  { input_size := some imgSz
    template_size := some tplSz
    result_size := some resSz
    staging_size := some resSz
    uniforms := if update then some ⟨iw, ih, tw, th⟩ else s.uniforms }

/-- A surface-producing function that returns the candidate image itself as
the match surface: used to drive the policy layer on synthetic surfaces. -/
def mtId : MatchTemplateFn := fun img _ _ _ => img

/-- A 1×1 template (its pixel content is irrelevant to the policy layer). -/
def tmpl1 : GrayImage := ⟨1, 1, fun _ _ => 0⟩

/-- `MatcherOptions { method: SumOfSquaredDifference, threshold: 10.0, padding: false }`. -/
def optsSSD10 : MatcherOptions := ⟨.SumOfSquaredDifference, 10, false⟩

/-- `MatcherOptions { method: CrossCorrelation, threshold: 10.0, padding: false }`. -/
def optsCC10 : MatcherOptions := ⟨.CrossCorrelation, 10, false⟩

/-- `MatcherOptions { method: CrossCorrelationNormed, threshold: 0.5, padding: false }`. -/
def optsCCN05 : MatcherOptions := ⟨.CrossCorrelationNormed, mkRat 1 2, false⟩

/-- The threshold-direction scenario surface: `5.0` at one location (`(0,0)`)
and `50.0` elsewhere. -/
def surfThreshold : GrayImage := ⟨2, 1, fun x _ => if x = 0 then 5 else 50⟩

/-- Two 1×1 candidate images whose injected best-match values are `1.0` and
`5.0`: under `SumOfSquaredDifference` with threshold `10.0` both pass. -/
def imgsTwoPass : List GrayImage := [⟨1, 1, fun _ _ => 1⟩, ⟨1, 1, fun _ _ => 5⟩]

/-- Three 1×1 candidate images with injected best-match values
`{0.9, 0.95, 0.80}`. -/
def imgsBestSpec : List GrayImage :=
  [⟨1, 1, fun _ _ => mkRat 9 10⟩, ⟨1, 1, fun _ _ => mkRat 95 100⟩,
   ⟨1, 1, fun _ _ => mkRat 8 10⟩]

/-- 20×20 surface whose only qualifying pixels (value `100` against threshold
`50` under a higher-is-better method) are `(2,2)` and `(3,3)`. -/
def surfPeaks33 : GrayImage :=
  ⟨20, 20, fun x y => if (x = 2 ∧ y = 2) ∨ (x = 3 ∧ y = 3) then 100 else 0⟩

/-- 20×20 surface whose only qualifying pixels are `(2,2)` and `(10,10)`. -/
def surfPeaks1010 : GrayImage :=
  ⟨20, 20, fun x y => if (x = 2 ∧ y = 2) ∨ (x = 10 ∧ y = 10) then 100 else 0⟩

/-- A 2×1 template with pixels `[2, 0]`: its global mean is `1`. -/
def tmplMeanCex : GrayImage := ⟨2, 1, fun x _ => if x = 0 then 2 else 0⟩

/-- A 3×3 image for the padding-dimension counterexample. -/
def imgDim3 : GrayImage := ⟨3, 3, fun _ _ => 0⟩

/-- A 2×2 template for the padding-dimension counterexample. -/
def tmplDim2 : GrayImage := ⟨2, 2, fun _ _ => 0⟩

end ApCv

namespace ApCv

/-- **C9**: `MatcherOptions::method_default(method)` keeps the given method and
assigns threshold 30.0 to `SumOfSquaredDifference`, `CrossCorrelation` and
`CorrelationCoefficient`, 0.2 to `SumOfSquaredDifferenceNormed`, and 0.8 to
`CrossCorrelationNormed` and `CorrelationCoefficientNormed`. -/
theorem method_default_thresholds (m : MatchTemplateMethod) :
    (MatcherOptions.method_default m).method = m ∧
    (MatcherOptions.method_default m).threshold =
      (if m = .SumOfSquaredDifference ∨ m = .CrossCorrelation ∨
          m = .CorrelationCoefficient then (30.0 : ℚ)
       else if m = .SumOfSquaredDifferenceNormed then 0.2 else 0.8) := by
  cases m <;> exact ⟨rfl, by simp [MatcherOptions.method_default, MatcherOptions.default]⟩

end ApCv



namespace ApCv

/-- `updateFirstBox` finds no match to merge into exactly when no accumulated
match lies within the `template_w × template_h` box of the new pixel. -/
theorem updateFirstBox_eq_none_iff (tw th x y : Nat) (v : ℚ)
    (method : MatchTemplateMethod) (ms : List Match) :
    updateFirstBox tw th x y v method ms = none ↔
      ∀ m ∈ ms, ¬(((m.location.1 : Int) - (x : Int)).natAbs < tw ∧
        ((m.location.2 : Int) - (y : Int)).natAbs < th) := by
  induction ms with
  | nil => simp [updateFirstBox]
  | cons m rest ih =>
    by_cases h : ((m.location.1 : Int) - (x : Int)).natAbs < tw ∧
        ((m.location.2 : Int) - (y : Int)).natAbs < th
    · simp [updateFirstBox, h]
    · simp [updateFirstBox, h, Option.map_eq_none', ih]
      exact fun _ h1 => le_of_not_lt fun h2 => h ⟨h1, h2⟩

/-- A successful `updateFirstBox` merge keeps the number of accumulated
matches unchanged. -/
theorem updateFirstBox_some_length (tw th x y : Nat) (v : ℚ)
    (method : MatchTemplateMethod) :
    ∀ ms ms', updateFirstBox tw th x y v method ms = some ms' →
      ms'.length = ms.length := by
  intro ms
  induction ms with
  | nil => intro ms' h; simp [updateFirstBox] at h
  | cons m rest ih =>
    intro ms' h
    unfold updateFirstBox at h
    by_cases hb : ((m.location.1 : Int) - (x : Int)).natAbs < tw ∧
        ((m.location.2 : Int) - (y : Int)).natAbs < th
    · rw [if_pos hb] at h
      obtain rfl := Option.some_injective _ h.symm
      simp
    · rw [if_neg hb] at h
      cases hrec : updateFirstBox tw th x y v method rest with
      | none => rw [hrec] at h; simp at h
      | some ms₂ =>
        rw [hrec] at h
        simp only [Option.map_some'] at h
        obtain rfl := Option.some_injective _ h.symm
        simp [ih ms₂ hrec]

/-- Every element of a successful `updateFirstBox` merge is either an old
accumulated match or the new pixel, and the new pixel enters only by
replacing an in-box match that it is strictly more matching than. -/
theorem updateFirstBox_some_mem (tw th x y : Nat) (v : ℚ)
    (method : MatchTemplateMethod) :
    ∀ ms ms', updateFirstBox tw th x y v method ms = some ms' →
      ∀ m' ∈ ms', m' ∈ ms ∨
        (m' = ⟨(x, y), v⟩ ∧ ∃ m₀ ∈ ms,
          (((m₀.location.1 : Int) - (x : Int)).natAbs < tw ∧
            ((m₀.location.2 : Int) - (y : Int)).natAbs < th) ∧
          is_a_more_match_than_b v m₀.value method = true) := by
  intro ms
  induction ms with
  | nil => intro ms' h; simp [updateFirstBox] at h
  | cons m rest ih =>
    intro ms' h m' hm'
    unfold updateFirstBox at h
    by_cases hb : ((m.location.1 : Int) - (x : Int)).natAbs < tw ∧
        ((m.location.2 : Int) - (y : Int)).natAbs < th
    · rw [if_pos hb] at h
      obtain rfl := Option.some_injective _ h.symm
      rcases List.mem_cons.mp hm' with hhd | htl
      · by_cases hmore : is_a_more_match_than_b v m.value method = true
        · rw [if_pos hmore] at hhd
          exact Or.inr ⟨hhd, m, List.mem_cons_self m rest, hb, hmore⟩
        · rw [if_neg hmore] at hhd
          exact Or.inl (hhd ▸ List.mem_cons_self m rest)
      · exact Or.inl (List.mem_cons_of_mem m htl)
    · rw [if_neg hb] at h
      cases hrec : updateFirstBox tw th x y v method rest with
      | none => rw [hrec] at h; simp at h
      | some ms₂ =>
        rw [hrec] at h
        simp only [Option.map_some'] at h
        obtain rfl := Option.some_injective _ h.symm
        rcases List.mem_cons.mp hm' with hhd | htl
        · exact Or.inl (hhd ▸ List.mem_cons_self m rest)
        · rcases ih ms₂ hrec m' htl with hold | ⟨rfl, m₀, hm₀, hbox, hmore⟩
          · exact Or.inl (List.mem_cons_of_mem m hold)
          · exact Or.inr ⟨rfl, m₀, List.mem_cons_of_mem m hm₀, hbox, hmore⟩

/-- Pixels not more matching than the threshold are skipped by the scan, so
the fold over all pixels equals the fold over the qualifying ones. -/
theorem foldl_scanStep_filter (tw th : Nat) (method : MatchTemplateMethod)
    (threshold : ℚ) :
    ∀ (l : List (Nat × Nat × ℚ)) (acc : List Match),
      l.foldl (scanStep tw th method threshold) acc =
        (l.filter fun p => is_a_more_match_than_b p.2.2 threshold method).foldl
          (scanStep tw th method threshold) acc := by
  intro l
  induction l with
  | nil => intro acc; rfl
  | cons p rest ih =>
    intro acc
    by_cases hq : is_a_more_match_than_b p.2.2 threshold method = true
    · simp only [List.foldl_cons, List.filter_cons, hq, if_pos, ih]
    · have hskip : scanStep tw th method threshold acc p = acc := by
        simp [scanStep, hq]
      simp only [List.foldl_cons, List.filter_cons, hq, hskip, ih]
      simp

/-- Every match accumulated by the scan is more matching than the threshold
(provided every match already in the accumulator is). -/
theorem foldl_scanStep_qualify (tw th : Nat) (method : MatchTemplateMethod)
    (threshold : ℚ) :
    ∀ (l : List (Nat × Nat × ℚ)) (acc : List Match),
      (∀ m ∈ acc, is_a_more_match_than_b m.value threshold method = true) →
      ∀ m ∈ l.foldl (scanStep tw th method threshold) acc,
        is_a_more_match_than_b m.value threshold method = true := by
  intro l
  induction l with
  | nil => intro acc hacc; exact hacc
  | cons p rest ih =>
    intro acc hacc
    refine ih (scanStep tw th method threshold acc p) ?_
    intro m hm
    unfold scanStep at hm
    by_cases hq : is_a_more_match_than_b p.2.2 threshold method = true
    · rw [if_pos hq] at hm
      cases hrec : updateFirstBox tw th p.1 p.2.1 p.2.2 method acc with
      | none =>
        rw [hrec] at hm
        rcases List.mem_cons.mp hm with rfl | htl
        · exact hq
        · exact hacc m htl
      | some acc2 =>
        rw [hrec] at hm
        rcases updateFirstBox_some_mem tw th p.1 p.2.1 p.2.2 method acc acc2 hrec m hm with
          hold | ⟨rfl, _, _, _, _⟩
        · exact hacc m hold
        · exact hq
    · rw [if_neg hq] at hm
      exact hacc m hm

/-- Every match returned by `find_matches` is strictly more matching than the
threshold under the method's comparator. -/
theorem find_matches_all_qualify (input : GrayImage) (tw th : Nat)
    (method : MatchTemplateMethod) (threshold : ℚ) :
    ∀ m ∈ find_matches input tw th method threshold,
      is_a_more_match_than_b m.value threshold method = true := by
  intro m hm
  unfold find_matches at hm
  rw [(List.perm_insertionSort _ _).mem_iff, List.mem_reverse] at hm
  exact foldl_scanStep_qualify tw th method threshold _ [] (by simp) m hm

end ApCv

namespace ApCv

/-- **C8**: every match returned by `find_matches` already satisfies the
strict threshold comparator of its method (value < threshold for the two
SumOfSquaredDifference methods, value > threshold otherwise), so the
defensive re-filter in `MultiMatcher::match_template` removes nothing and its
result equals the `find_matches` result. -/
theorem multi_matcher_refilter_identity (mt : MatchTemplateFn)
    (image template : GrayImage) (options : MatcherOptions) :
    (∀ m ∈ find_matches (mt image template options.method options.padding)
        template.width template.height options.method options.threshold,
      is_a_more_match_than_b m.value options.threshold options.method = true) ∧
    (MultiMatcher.match_template mt image template options).result =
      find_matches (mt image template options.method options.padding)
        template.width template.height options.method options.threshold := by
  obtain ⟨method, threshold, padding⟩ := options
  refine ⟨find_matches_all_qualify _ _ _ _ _, ?_⟩
  simp only [MultiMatcher.match_template]
  rw [List.filter_eq_self]
  intro m hm
  have h := find_matches_all_qualify (mt image template method padding)
    template.width template.height method threshold m hm
  cases method <;> simpa [is_a_more_match_than_b] using h

/-- The length of the `find_matches` result is the length of the scan fold
over just the qualifying pixels. -/
theorem find_matches_length_eq_fold (input : GrayImage) (tw th : Nat)
    (method : MatchTemplateMethod) (threshold : ℚ) :
    (find_matches input tw th method threshold).length =
      ((qualifyingPixels input method threshold).foldl
        (scanStep tw th method threshold) []).length := by
  unfold find_matches qualifyingPixels
  rw [List.length_insertionSort, List.length_reverse, foldl_scanStep_filter]

end ApCv

namespace ApCv

/-- Members of `qualifyingPixels` satisfy the threshold comparator. -/
theorem qualifyingPixels_qual {input : GrayImage} {method : MatchTemplateMethod}
    {thr : ℚ} {p : Nat × Nat × ℚ} (h : p ∈ qualifyingPixels input method thr) :
    is_a_more_match_than_b p.2.2 thr method = true := by
  unfold qualifyingPixels at h
  have h2 := List.of_mem_filter h
  simpa using h2

/-- **C5**: with template size 5×5, a 20×20 surface whose only
threshold-qualifying pixels are (2,2) and (3,3) makes `find_matches` return
exactly one match, while qualifying pixels (2,2) and (10,10) make it return
exactly two; a qualifying pixel merges into an accumulated match exactly when
`|Δx| < template_w` and `|Δy| < template_h`, and replaces it only when
strictly more matching. -/
theorem find_matches_nms_merge
    (s₁ s₂ : GrayImage) (method : MatchTemplateMethod) (thr v1 v2 w1 w2 : ℚ)
    (hs₁ : s₁.width = 20 ∧ s₁.height = 20) (hs₂ : s₂.width = 20 ∧ s₂.height = 20)
    (h₁ : qualifyingPixels s₁ method thr = [(2, 2, v1), (3, 3, v2)])
    (h₂ : qualifyingPixels s₂ method thr = [(2, 2, w1), (10, 10, w2)]) :
    (find_matches s₁ 5 5 method thr).length = 1 ∧
    (find_matches s₂ 5 5 method thr).length = 2 ∧
    (∀ (tw th x y : Nat) (v : ℚ) (ms : List Match),
      updateFirstBox tw th x y v method ms = none ↔
        ∀ m ∈ ms, ¬(((m.location.1 : Int) - (x : Int)).natAbs < tw ∧
          ((m.location.2 : Int) - (y : Int)).natAbs < th)) ∧
    (∀ (tw th x y : Nat) (v : ℚ) (ms ms' : List Match),
      updateFirstBox tw th x y v method ms = some ms' →
        ms'.length = ms.length ∧
        ∀ m' ∈ ms', m' ∈ ms ∨
          (m' = ⟨(x, y), v⟩ ∧ ∃ m₀ ∈ ms,
            (((m₀.location.1 : Int) - (x : Int)).natAbs < tw ∧
              ((m₀.location.2 : Int) - (y : Int)).natAbs < th) ∧
            is_a_more_match_than_b v m₀.value method = true)) := by
  have hq1 : is_a_more_match_than_b v1 thr method = true := by
    have hmem : ((2, 2, v1) : Nat × Nat × ℚ) ∈ qualifyingPixels s₁ method thr := by
      rw [h₁]; exact List.mem_cons_self _ _
    exact qualifyingPixels_qual hmem
  have hq2 : is_a_more_match_than_b v2 thr method = true := by
    have hmem : ((3, 3, v2) : Nat × Nat × ℚ) ∈ qualifyingPixels s₁ method thr := by
      rw [h₁]; exact List.mem_cons_of_mem _ (List.mem_cons_self _ _)
    exact qualifyingPixels_qual hmem
  have hw1 : is_a_more_match_than_b w1 thr method = true := by
    have hmem : ((2, 2, w1) : Nat × Nat × ℚ) ∈ qualifyingPixels s₂ method thr := by
      rw [h₂]; exact List.mem_cons_self _ _
    exact qualifyingPixels_qual hmem
  have hw2 : is_a_more_match_than_b w2 thr method = true := by
    have hmem : ((10, 10, w2) : Nat × Nat × ℚ) ∈ qualifyingPixels s₂ method thr := by
      rw [h₂]; exact List.mem_cons_of_mem _ (List.mem_cons_self _ _)
    exact qualifyingPixels_qual hmem
  refine ⟨?_, ?_, ?_, ?_⟩
  · rw [find_matches_length_eq_fold, h₁]
    simp only [List.foldl_cons, List.foldl_nil]
    have step1 : scanStep 5 5 method thr [] (2, 2, v1) = [⟨(2, 2), v1⟩] := by
      simp [scanStep, hq1, updateFirstBox]
    rw [step1]
    have hbox : (((2 : Nat) : Int) - ((3 : Nat) : Int)).natAbs < 5 ∧
        (((2 : Nat) : Int) - ((3 : Nat) : Int)).natAbs < 5 := by decide
    have step2 : scanStep 5 5 method thr [⟨(2, 2), v1⟩] (3, 3, v2) =
        [if is_a_more_match_than_b v2 v1 method then ⟨(3, 3), v2⟩ else ⟨(2, 2), v1⟩] := by
      simp only [scanStep, hq2, if_true]
      rw [show updateFirstBox 5 5 3 3 v2 method [⟨(2, 2), v1⟩] =
        some [if is_a_more_match_than_b v2 v1 method then ⟨(3, 3), v2⟩ else ⟨(2, 2), v1⟩]
        from by unfold updateFirstBox; rw [if_pos hbox]]
    rw [step2]
    simp
  · rw [find_matches_length_eq_fold, h₂]
    simp only [List.foldl_cons, List.foldl_nil]
    have step1 : scanStep 5 5 method thr [] (2, 2, w1) = [⟨(2, 2), w1⟩] := by
      simp [scanStep, hw1, updateFirstBox]
    rw [step1]
    have hnone : updateFirstBox 5 5 10 10 w2 method [⟨(2, 2), w1⟩] = none := by
      rw [updateFirstBox_eq_none_iff]
      intro m hm
      rcases List.mem_cons.mp hm with rfl | habs
      · show ¬((((2 : Nat) : Int) - ((10 : Nat) : Int)).natAbs < 5 ∧
          (((2 : Nat) : Int) - ((10 : Nat) : Int)).natAbs < 5)
        decide
      · simp at habs
    have step2 : scanStep 5 5 method thr [⟨(2, 2), w1⟩] (10, 10, w2) =
        [⟨(10, 10), w2⟩, ⟨(2, 2), w1⟩] := by
      simp [scanStep, hw2, hnone]
    rw [step2]
    simp
  · intro tw th x y v ms
    exact updateFirstBox_eq_none_iff tw th x y v method ms
  · intro tw th x y v ms ms' h
    exact ⟨updateFirstBox_some_length tw th x y v method ms ms' h,
      updateFirstBox_some_mem tw th x y v method ms ms' h⟩

/-- Witness for C5: the two synthetic 20×20 surfaces with peak value 100
against threshold 50 under `CrossCorrelation` instantiate the scenario. -/
theorem find_matches_nms_merge_witness :
    (surfPeaks33.width = 20 ∧ surfPeaks33.height = 20) ∧
    qualifyingPixels surfPeaks33 .CrossCorrelation 50 = [(2, 2, 100), (3, 3, 100)] ∧
    qualifyingPixels surfPeaks1010 .CrossCorrelation 50 = [(2, 2, 100), (10, 10, 100)] ∧
    (find_matches surfPeaks33 5 5 .CrossCorrelation 50).length = 1 ∧
    (find_matches surfPeaks1010 5 5 .CrossCorrelation 50).length = 2 := by
  set_option maxRecDepth 40000 in
  refine ⟨by decide, by decide, by decide, ?_⟩
  exact ⟨(find_matches_nms_merge surfPeaks33 surfPeaks1010 .CrossCorrelation 50 100 100 100 100
    (by decide) (by decide) (by decide) (by decide)).1,
    (find_matches_nms_merge surfPeaks33 surfPeaks1010 .CrossCorrelation 50 100 100 100 100
    (by decide) (by decide) (by decide) (by decide)).2.1⟩

end ApCv

namespace ApCv

/-- Folding `maxByStep` from a `some` accumulator yields an element of the
accumulator-or-list whose value bounds the accumulator and every list
element. -/
theorem maxByStep_fold_some (l : List (Nat × RectMatch)) :
    ∀ q : Nat × RectMatch, ∃ r, l.foldl maxByStep (some q) = some r ∧
      (r = q ∨ r ∈ l) ∧ q.2.value ≤ r.2.value ∧ ∀ p ∈ l, p.2.value ≤ r.2.value := by
  induction l with
  | nil => intro q; exact ⟨q, rfl, Or.inl rfl, le_refl _, by simp⟩
  | cons p rest ih =>
    intro q
    by_cases hgt : q.2.value > p.2.value
    · obtain ⟨r, hfold, hmem, hle, hall⟩ := ih q
      refine ⟨r, ?_, ?_, hle, ?_⟩
      · simpa [maxByStep, hgt] using hfold
      · rcases hmem with rfl | hr
        · exact Or.inl rfl
        · exact Or.inr (List.mem_cons_of_mem p hr)
      · intro p' hp'
        rcases List.mem_cons.mp hp' with rfl | htl
        · exact le_trans (le_of_lt hgt) hle
        · exact hall p' htl
    · obtain ⟨r, hfold, hmem, hle, hall⟩ := ih p
      refine ⟨r, ?_, ?_, le_trans (le_of_not_lt hgt) hle, ?_⟩
      · simpa [maxByStep, hgt] using hfold
      · rcases hmem with rfl | hr
        · exact Or.inr (List.mem_cons_self _ _)
        · exact Or.inr (List.mem_cons_of_mem p hr)
      · intro p' hp'
        rcases List.mem_cons.mp hp' with rfl | htl
        · exact hle
        · exact hall p' htl

/-- `maxByValue` returns `none` exactly on the empty list, and otherwise an
element of the list whose value is greatest. -/
theorem maxByValue_spec (l : List (Nat × RectMatch)) :
    (maxByValue l = none ↔ l = []) ∧
    ∀ r, maxByValue l = some r → r ∈ l ∧ ∀ p ∈ l, p.2.value ≤ r.2.value := by
  cases l with
  | nil => exact ⟨by simp [maxByValue], by simp [maxByValue]⟩
  | cons p rest =>
    obtain ⟨r, hfold, hmem, hle, hall⟩ := maxByStep_fold_some rest p
    have hval : maxByValue (p :: rest) = some r := by
      simpa [maxByValue, maxByStep] using hfold
    constructor
    · simp [hval]
    · intro r' hr'
      rw [hval] at hr'
      obtain rfl := Option.some_injective _ hr'.symm
      refine ⟨?_, ?_⟩
      · rcases hmem with rfl | hr
        · exact List.mem_cons_self _ _
        · exact List.mem_cons_of_mem p hr
      · intro p' hp'
        rcases List.mem_cons.mp hp' with rfl | htl
        · exact hle
        · exact hall p' htl

end ApCv

namespace ApCv

/-- **C1** (amended): `BestMatcher::match_template` runs `SingleMatcher` once
per candidate image and, among the candidates whose `SingleMatcher` result
passed the threshold, picks the one with the numerically largest match value
under every method (`max_by` with `f32::total_cmp`, with no better-direction
normalization; ties go to the later index); it returns `None` exactly when no
candidate passed. -/
theorem best_matcher_picks_numerically_largest (mt : MatchTemplateFn)
    (images : List GrayImage) (template : GrayImage) (options : MatcherOptions) :
    (BestMatcher.match_template mt images template options).single_results =
      (images.map fun img => SingleMatcher.match_template mt img template options) ∧
    ((BestMatcher.match_template mt images template options).result = none ↔
      ((BestMatcher.match_template mt images template options).single_results.enum.filterMap
        fun p => p.2.result.map fun m => (p.1, m)) = []) ∧
    (∀ r, (BestMatcher.match_template mt images template options).result = some r →
      r ∈ ((BestMatcher.match_template mt images template options).single_results.enum.filterMap
        fun p => p.2.result.map fun m => (p.1, m)) ∧
      ∀ p ∈ ((BestMatcher.match_template mt images template options).single_results.enum.filterMap
        fun p => p.2.result.map fun m => (p.1, m)), p.2.value ≤ r.2.value) := by
  refine ⟨rfl, ?_, ?_⟩
  · exact (maxByValue_spec _).1
  · exact (maxByValue_spec _).2

/-- Counterexample to C1 as stated: under the lower-is-better
`SumOfSquaredDifference` with threshold 10, both candidates pass (values 1 and
5), yet `BestMatcher` returns index 1 with the numerically larger value 5
instead of the numerically smallest passing value 1. -/
theorem best_matcher_direction_counterexample :
    (BestMatcher.match_template mtId imgsTwoPass tmpl1 optsSSD10).result =
      some (1, ⟨⟨0, 0, 1, 1⟩, 5⟩) ∧
    ((BestMatcher.match_template mtId imgsTwoPass tmpl1 optsSSD10).single_results.map
      fun r => r.result) = [some ⟨⟨0, 0, 1, 1⟩, 1⟩, some ⟨⟨0, 0, 1, 1⟩, 5⟩] ∧
    optsSSD10.method = .SumOfSquaredDifference ∧ (1 : ℚ) < 5 := by
  refine ⟨by decide, by decide, rfl, by decide⟩

/-- Witness for C1 (amended): over the three candidates with injected values
{0.9, 0.95, 0.80} under `CrossCorrelationNormed` and threshold 0.5,
`BestMatcher` returns index 1 (the 0.95 image). -/
theorem best_matcher_picks_numerically_largest_witness :
    (BestMatcher.match_template mtId imgsBestSpec tmpl1 optsCCN05).result =
      some (1, ⟨⟨0, 0, 1, 1⟩, mkRat 95 100⟩) ∧
    (BestMatcher.match_template mtId imgsBestSpec tmpl1 optsCCN05).single_results =
      (imgsBestSpec.map fun img => SingleMatcher.match_template mtId img tmpl1 optsCCN05) :=
  ⟨by decide, (best_matcher_picks_numerically_largest mtId imgsBestSpec tmpl1 optsCCN05).1⟩

end ApCv

namespace ApCv

/-- Membership in the row-major pixel enumeration is exactly in-bounds
coordinates with the image's pixel value. -/
theorem mem_enumeratePixels {img : GrayImage} {x y : Nat} {v : ℚ} :
    (x, y, v) ∈ img.enumeratePixels ↔
      x < img.width ∧ y < img.height ∧ v = img.pix x y := by
  unfold GrayImage.enumeratePixels
  simp only [List.mem_flatMap, List.mem_map, List.mem_range, Prod.mk.injEq]
  constructor
  · rintro ⟨y', hy', x', hx', rfl, rfl, rfl⟩
    exact ⟨hx', hy', rfl⟩
  · rintro ⟨hx, hy, rfl⟩
    exact ⟨y, hy, x, hx, rfl, rfl, rfl⟩

/-- One `find_extremes` step can only lower the running minimum, and takes the
new pixel's value as a bound. -/
theorem extremesStep_min_le (e : Extremes) (p : Nat × Nat × ℚ) :
    (extremesStep e p).min_value ≤ e.min_value ∧
      (extremesStep e p).min_value ≤ p.2.2 := by
  unfold extremesStep
  by_cases hmax : p.2.2 > e.max_value <;>
    by_cases hmin : p.2.2 < e.min_value <;>
    simp [hmax, hmin, le_of_lt, le_of_not_lt]

/-- One `find_extremes` step either keeps the running minimum and its location
or replaces both by the new pixel. -/
theorem extremesStep_min_cases (e : Extremes) (p : Nat × Nat × ℚ) :
    ((extremesStep e p).min_value = e.min_value ∧
      (extremesStep e p).min_value_location = e.min_value_location) ∨
    ((extremesStep e p).min_value = p.2.2 ∧
      (extremesStep e p).min_value_location = (p.1, p.2.1)) := by
  unfold extremesStep
  by_cases hmax : p.2.2 > e.max_value <;>
    by_cases hmin : p.2.2 < e.min_value <;>
    simp [hmax, hmin]

/-- One `find_extremes` step can only raise the running maximum, and takes the
new pixel's value as a bound. -/
theorem extremesStep_max_ge (e : Extremes) (p : Nat × Nat × ℚ) :
    e.max_value ≤ (extremesStep e p).max_value ∧
      p.2.2 ≤ (extremesStep e p).max_value := by
  unfold extremesStep
  by_cases hmax : p.2.2 > e.max_value <;>
    by_cases hmin : p.2.2 < e.min_value <;>
    simp [hmax, hmin, le_of_lt, le_of_not_lt]

/-- One `find_extremes` step either keeps the running maximum and its location
or replaces both by the new pixel. -/
theorem extremesStep_max_cases (e : Extremes) (p : Nat × Nat × ℚ) :
    ((extremesStep e p).max_value = e.max_value ∧
      (extremesStep e p).max_value_location = e.max_value_location) ∨
    ((extremesStep e p).max_value = p.2.2 ∧
      (extremesStep e p).max_value_location = (p.1, p.2.1)) := by
  unfold extremesStep
  by_cases hmax : p.2.2 > e.max_value <;>
    by_cases hmin : p.2.2 < e.min_value <;>
    simp [hmax, hmin]

/-- The folded minimum bounds the initial minimum and every scanned pixel. -/
theorem foldl_extremes_min_le (l : List (Nat × Nat × ℚ)) :
    ∀ e₀ : Extremes, (l.foldl extremesStep e₀).min_value ≤ e₀.min_value ∧
      ∀ p ∈ l, (l.foldl extremesStep e₀).min_value ≤ p.2.2 := by
  induction l with
  | nil => intro e₀; exact ⟨le_refl _, by simp⟩
  | cons p rest ih =>
    intro e₀
    obtain ⟨hstep₁, hstep₂⟩ := extremesStep_min_le e₀ p
    obtain ⟨hinit, hall⟩ := ih (extremesStep e₀ p)
    refine ⟨le_trans hinit hstep₁, ?_⟩
    intro p' hp'
    rcases List.mem_cons.mp hp' with rfl | htl
    · exact le_trans hinit hstep₂
    · exact hall p' htl

/-- The folded minimum and its location are the initial ones or come from a
scanned pixel. -/
theorem foldl_extremes_min_attained (l : List (Nat × Nat × ℚ)) :
    ∀ e₀ : Extremes,
      ((l.foldl extremesStep e₀).min_value = e₀.min_value ∧
        (l.foldl extremesStep e₀).min_value_location = e₀.min_value_location) ∨
      ∃ p ∈ l, (l.foldl extremesStep e₀).min_value = p.2.2 ∧
        (l.foldl extremesStep e₀).min_value_location = (p.1, p.2.1) := by
  induction l with
  | nil => intro e₀; exact Or.inl ⟨rfl, rfl⟩
  | cons p rest ih =>
    intro e₀
    rcases ih (extremesStep e₀ p) with ⟨hv, hl⟩ | ⟨p', hp', hv, hl⟩
    · rcases extremesStep_min_cases e₀ p with ⟨sv, sl⟩ | ⟨sv, sl⟩
      · exact Or.inl ⟨hv.trans sv, hl.trans sl⟩
      · exact Or.inr ⟨p, List.mem_cons_self _ _, hv.trans sv, hl.trans sl⟩
    · exact Or.inr ⟨p', List.mem_cons_of_mem p hp', hv, hl⟩

/-- The folded maximum bounds the initial maximum and every scanned pixel. -/
theorem foldl_extremes_max_ge (l : List (Nat × Nat × ℚ)) :
    ∀ e₀ : Extremes, e₀.max_value ≤ (l.foldl extremesStep e₀).max_value ∧
      ∀ p ∈ l, p.2.2 ≤ (l.foldl extremesStep e₀).max_value := by
  induction l with
  | nil => intro e₀; exact ⟨le_refl _, by simp⟩
  | cons p rest ih =>
    intro e₀
    obtain ⟨hstep₁, hstep₂⟩ := extremesStep_max_ge e₀ p
    obtain ⟨hinit, hall⟩ := ih (extremesStep e₀ p)
    refine ⟨le_trans hstep₁ hinit, ?_⟩
    intro p' hp'
    rcases List.mem_cons.mp hp' with rfl | htl
    · exact le_trans hstep₂ hinit
    · exact hall p' htl

/-- The folded maximum and its location are the initial ones or come from a
scanned pixel. -/
theorem foldl_extremes_max_attained (l : List (Nat × Nat × ℚ)) :
    ∀ e₀ : Extremes,
      ((l.foldl extremesStep e₀).max_value = e₀.max_value ∧
        (l.foldl extremesStep e₀).max_value_location = e₀.max_value_location) ∨
      ∃ p ∈ l, (l.foldl extremesStep e₀).max_value = p.2.2 ∧
        (l.foldl extremesStep e₀).max_value_location = (p.1, p.2.1) := by
  induction l with
  | nil => intro e₀; exact Or.inl ⟨rfl, rfl⟩
  | cons p rest ih =>
    intro e₀
    rcases ih (extremesStep e₀ p) with ⟨hv, hl⟩ | ⟨p', hp', hv, hl⟩
    · rcases extremesStep_max_cases e₀ p with ⟨sv, sl⟩ | ⟨sv, sl⟩
      · exact Or.inl ⟨hv.trans sv, hl.trans sl⟩
      · exact Or.inr ⟨p, List.mem_cons_self _ _, hv.trans sv, hl.trans sl⟩
    · exact Or.inr ⟨p', List.mem_cons_of_mem p hp', hv, hl⟩

/-- On a non-empty surface, `find_extremes`'s minimum is attained at its
reported in-bounds location and bounds every pixel from below. -/
theorem find_extremes_min_spec (s : GrayImage) (hw : 0 < s.width)
    (hh : 0 < s.height) :
    ((find_extremes s).min_value_location.1 < s.width ∧
      (find_extremes s).min_value_location.2 < s.height ∧
      s.pix (find_extremes s).min_value_location.1
        (find_extremes s).min_value_location.2 = (find_extremes s).min_value) ∧
    ∀ x < s.width, ∀ y < s.height, (find_extremes s).min_value ≤ s.pix x y := by
  constructor
  · rcases foldl_extremes_min_attained s.enumeratePixels
      ⟨s.getPixel 0 0, s.getPixel 0 0, (0, 0), (0, 0)⟩ with ⟨hv, hl⟩ | ⟨p, hp, hv, hl⟩
    · unfold find_extremes
      rw [hv, hl]
      exact ⟨hw, hh, rfl⟩
    · obtain ⟨x, y, v⟩ := p
      obtain ⟨hx, hy, rfl⟩ := mem_enumeratePixels.mp hp
      unfold find_extremes
      rw [hv, hl]
      exact ⟨hx, hy, rfl⟩
  · intro x hx y hy
    have hmem : (x, y, s.pix x y) ∈ s.enumeratePixels :=
      mem_enumeratePixels.mpr ⟨hx, hy, rfl⟩
    exact (foldl_extremes_min_le s.enumeratePixels _).2 _ hmem

/-- On a non-empty surface, `find_extremes`'s maximum is attained at its
reported in-bounds location and bounds every pixel from above. -/
theorem find_extremes_max_spec (s : GrayImage) (hw : 0 < s.width)
    (hh : 0 < s.height) :
    ((find_extremes s).max_value_location.1 < s.width ∧
      (find_extremes s).max_value_location.2 < s.height ∧
      s.pix (find_extremes s).max_value_location.1
        (find_extremes s).max_value_location.2 = (find_extremes s).max_value) ∧
    ∀ x < s.width, ∀ y < s.height, s.pix x y ≤ (find_extremes s).max_value := by
  constructor
  · rcases foldl_extremes_max_attained s.enumeratePixels
      ⟨s.getPixel 0 0, s.getPixel 0 0, (0, 0), (0, 0)⟩ with ⟨hv, hl⟩ | ⟨p, hp, hv, hl⟩
    · unfold find_extremes
      rw [hv, hl]
      exact ⟨hw, hh, rfl⟩
    · obtain ⟨x, y, v⟩ := p
      obtain ⟨hx, hy, rfl⟩ := mem_enumeratePixels.mp hp
      unfold find_extremes
      rw [hv, hl]
      exact ⟨hx, hy, rfl⟩
  · intro x hx y hy
    have hmem : (x, y, s.pix x y) ∈ s.enumeratePixels :=
      mem_enumeratePixels.mpr ⟨hx, hy, rfl⟩
    exact (foldl_extremes_max_ge s.enumeratePixels _).2 _ hmem

end ApCv

namespace ApCv

/-- Direction-generic core of the SingleMatcher specification, lower-is-better
side: assuming the method compares `a < b` and the matcher thresholds the
global minimum (both hold definitionally for the two SumOfSquaredDifference
methods), the result is `some` exactly when a pixel passes the threshold, and
any returned match attains the global minimum at an in-bounds location. -/
theorem single_spec_aux_lower (mt : MatchTemplateFn) (image template : GrayImage)
    (method : MatchTemplateMethod) (threshold : ℚ) (padding : Bool)
    (hdir : ∀ a b : ℚ, is_a_more_match_than_b a b method = decide (a < b))
    (hres : (SingleMatcher.match_template mt image template ⟨method, threshold, padding⟩).result =
      if (find_extremes (mt image template method padding)).min_value < threshold then
        some ⟨⟨(find_extremes (mt image template method padding)).min_value_location.1,
               (find_extremes (mt image template method padding)).min_value_location.2,
               template.width, template.height⟩,
              (find_extremes (mt image template method padding)).min_value⟩
      else none)
    (hw : 0 < (mt image template method padding).width)
    (hh : 0 < (mt image template method padding).height) :
    ((∃ m, (SingleMatcher.match_template mt image template
        ⟨method, threshold, padding⟩).result = some m) ↔
      ∃ x < (mt image template method padding).width,
        ∃ y < (mt image template method padding).height,
          is_a_more_match_than_b ((mt image template method padding).pix x y)
            threshold method = true) ∧
    ∀ m, (SingleMatcher.match_template mt image template
        ⟨method, threshold, padding⟩).result = some m →
      m.rect.width = template.width ∧ m.rect.height = template.height ∧
      m.rect.x < (mt image template method padding).width ∧
      m.rect.y < (mt image template method padding).height ∧
      (mt image template method padding).pix m.rect.x m.rect.y = m.value ∧
      is_a_more_match_than_b m.value threshold method = true ∧
      ∀ x < (mt image template method padding).width,
        ∀ y < (mt image template method padding).height,
          is_a_more_match_than_b ((mt image template method padding).pix x y)
            m.value method = false := by
  obtain ⟨⟨hx0, hy0, hpix0⟩, hopt⟩ :=
    find_extremes_min_spec (mt image template method padding) hw hh
  rw [hres]
  constructor
  · constructor
    · rintro ⟨m, hm⟩
      split at hm
      · rename_i hlt
        refine ⟨_, hx0, _, hy0, ?_⟩
        rw [hdir, hpix0]
        exact decide_eq_true hlt
      · cases hm
    · rintro ⟨x, hx, y, hy, hq⟩
      rw [hdir] at hq
      have hqlt := of_decide_eq_true hq
      have hlt : (find_extremes (mt image template method padding)).min_value < threshold :=
        lt_of_le_of_lt (hopt x hx y hy) hqlt
      exact ⟨_, by rw [if_pos hlt]⟩
  · intro m hm
    split at hm
    · rename_i hlt
      obtain rfl := Option.some_injective _ hm.symm
      refine ⟨rfl, rfl, hx0, hy0, hpix0, ?_, ?_⟩
      · rw [hdir]
        exact decide_eq_true hlt
      · intro x hx y hy
        rw [hdir]
        exact decide_eq_false (not_lt.mpr (hopt x hx y hy))
    · cases hm

/-- Direction-generic core of the SingleMatcher specification,
higher-is-better side: assuming the method compares `a > b` and the matcher
thresholds the global maximum (both hold definitionally for the four
correlation methods). -/
theorem single_spec_aux_higher (mt : MatchTemplateFn) (image template : GrayImage)
    (method : MatchTemplateMethod) (threshold : ℚ) (padding : Bool)
    (hdir : ∀ a b : ℚ, is_a_more_match_than_b a b method = decide (b < a))
    (hres : (SingleMatcher.match_template mt image template ⟨method, threshold, padding⟩).result =
      if threshold < (find_extremes (mt image template method padding)).max_value then
        some ⟨⟨(find_extremes (mt image template method padding)).max_value_location.1,
               (find_extremes (mt image template method padding)).max_value_location.2,
               template.width, template.height⟩,
              (find_extremes (mt image template method padding)).max_value⟩
      else none)
    (hw : 0 < (mt image template method padding).width)
    (hh : 0 < (mt image template method padding).height) :
    ((∃ m, (SingleMatcher.match_template mt image template
        ⟨method, threshold, padding⟩).result = some m) ↔
      ∃ x < (mt image template method padding).width,
        ∃ y < (mt image template method padding).height,
          is_a_more_match_than_b ((mt image template method padding).pix x y)
            threshold method = true) ∧
    ∀ m, (SingleMatcher.match_template mt image template
        ⟨method, threshold, padding⟩).result = some m →
      m.rect.width = template.width ∧ m.rect.height = template.height ∧
      m.rect.x < (mt image template method padding).width ∧
      m.rect.y < (mt image template method padding).height ∧
      (mt image template method padding).pix m.rect.x m.rect.y = m.value ∧
      is_a_more_match_than_b m.value threshold method = true ∧
      ∀ x < (mt image template method padding).width,
        ∀ y < (mt image template method padding).height,
          is_a_more_match_than_b ((mt image template method padding).pix x y)
            m.value method = false := by
  obtain ⟨⟨hx0, hy0, hpix0⟩, hopt⟩ :=
    find_extremes_max_spec (mt image template method padding) hw hh
  rw [hres]
  constructor
  · constructor
    · rintro ⟨m, hm⟩
      split at hm
      · rename_i hlt
        refine ⟨_, hx0, _, hy0, ?_⟩
        rw [hdir, hpix0]
        exact decide_eq_true hlt
      · cases hm
    · rintro ⟨x, hx, y, hy, hq⟩
      rw [hdir] at hq
      have hqlt := of_decide_eq_true hq
      have hlt : threshold < (find_extremes (mt image template method padding)).max_value :=
        lt_of_lt_of_le hqlt (hopt x hx y hy)
      exact ⟨_, by rw [if_pos hlt]⟩
  · intro m hm
    split at hm
    · rename_i hlt
      obtain rfl := Option.some_injective _ hm.symm
      refine ⟨rfl, rfl, hx0, hy0, hpix0, ?_, ?_⟩
      · rw [hdir]
        exact decide_eq_true hlt
      · intro x hx y hy
        rw [hdir]
        exact decide_eq_false (not_lt.mpr (hopt x hx y hy))
    · cases hm

/-- **C6**: `SingleMatcher::match_template` yields `Some` exactly when some
surface pixel passes the threshold in the method's better-direction
(equivalently, when the relevant global extremum passes it), and the returned
match carries an in-bounds location at which the surface attains that global
optimum, with the optimum value, the template's dimensions, and no surface
pixel strictly more matching than it. -/
theorem single_matcher_extremum_spec (mt : MatchTemplateFn)
    (image template : GrayImage) (options : MatcherOptions)
    (hw : 0 < (mt image template options.method options.padding).width)
    (hh : 0 < (mt image template options.method options.padding).height) :
    ((∃ m, (SingleMatcher.match_template mt image template options).result = some m) ↔
      ∃ x < (mt image template options.method options.padding).width,
        ∃ y < (mt image template options.method options.padding).height,
          is_a_more_match_than_b
            ((mt image template options.method options.padding).pix x y)
            options.threshold options.method = true) ∧
    ∀ m, (SingleMatcher.match_template mt image template options).result = some m →
      m.rect.width = template.width ∧ m.rect.height = template.height ∧
      m.rect.x < (mt image template options.method options.padding).width ∧
      m.rect.y < (mt image template options.method options.padding).height ∧
      (mt image template options.method options.padding).pix m.rect.x m.rect.y = m.value ∧
      is_a_more_match_than_b m.value options.threshold options.method = true ∧
      ∀ x < (mt image template options.method options.padding).width,
        ∀ y < (mt image template options.method options.padding).height,
          is_a_more_match_than_b
            ((mt image template options.method options.padding).pix x y)
            m.value options.method = false := by
  obtain ⟨method, threshold, padding⟩ := options
  dsimp only at hw hh ⊢
  cases method
  case SumOfSquaredDifference =>
    exact single_spec_aux_lower mt image template _ threshold padding
      (fun a b => rfl) rfl hw hh
  case SumOfSquaredDifferenceNormed =>
    exact single_spec_aux_lower mt image template _ threshold padding
      (fun a b => rfl) rfl hw hh
  case CrossCorrelation =>
    exact single_spec_aux_higher mt image template _ threshold padding
      (fun a b => rfl) rfl hw hh
  case CrossCorrelationNormed =>
    exact single_spec_aux_higher mt image template _ threshold padding
      (fun a b => rfl) rfl hw hh
  case CorrelationCoefficient =>
    exact single_spec_aux_higher mt image template _ threshold padding
      (fun a b => rfl) rfl hw hh
  case CorrelationCoefficientNormed =>
    exact single_spec_aux_higher mt image template _ threshold padding
      (fun a b => rfl) rfl hw hh

end ApCv

namespace ApCv

/-- Witness for C6: on the surface holding 5.0 at (0,0) and 50.0 elsewhere
with threshold 10.0, `SumOfSquaredDifference` returns `Some` at the 5.0
location and `CrossCorrelation` returns `Some` at the 50.0 location. -/
theorem single_matcher_extremum_spec_witness :
    (SingleMatcher.match_template mtId surfThreshold tmpl1 optsSSD10).result =
      some ⟨⟨0, 0, 1, 1⟩, 5⟩ ∧
    (SingleMatcher.match_template mtId surfThreshold tmpl1 optsCC10).result =
      some ⟨⟨1, 0, 1, 1⟩, 50⟩ ∧
    (∃ m, (SingleMatcher.match_template mtId surfThreshold tmpl1 optsSSD10).result =
      some m) :=
  ⟨by decide, by decide,
    (single_matcher_extremum_spec mtId surfThreshold tmpl1 optsSSD10
      (by decide) (by decide)).1.mpr ⟨0, by decide, 0, by decide, by decide⟩⟩

end ApCv

namespace ApCv

/-- The sum of all pixel values in enumeration order is the row-by-row double
sum. -/
theorem sum_enumeratePixels (t : GrayImage) :
    (t.enumeratePixels.map fun p => p.2.2).sum =
      ((List.range t.height).map fun y =>
        ((List.range t.width).map fun x => t.pix x y).sum).sum := by
  unfold GrayImage.enumeratePixels
  rw [List.map_flatMap]
  rw [show ((List.range t.height).flatMap fun y =>
        ((List.range t.width).map fun x => (x, y, t.pix x y)).map fun p => p.2.2) =
      ((List.range t.height).map fun y =>
        ((List.range t.width).map fun x => (x, y, t.pix x y)).map fun p => p.2.2).flatten
    from rfl]
  rw [List.sum_flatten, List.map_map]
  refine congrArg List.sum (List.map_congr_left ?_)
  intro y hy
  simp only [List.map_map]
  rfl

/-- **C2** (amended): the template's per-position local average computed by
the pre-pass has the template's dimensions and equals the template's global
mean at position (0,0) — the only position at which the shifted averaging
window fully covers the template.  (At other positions the window extends
into the zero padding, so the subtracted value varies per pixel.) -/
theorem template_local_avg_origin_mean (t : GrayImage) (hw : 0 < t.width)
    (hh : 0 < t.height) :
    (templateLocalAvg t).width = t.width ∧
    (templateLocalAvg t).height = t.height ∧
    (templateLocalAvg t).pix 0 0 = globalMean t := by
  refine ⟨?_, ?_, ?_⟩
  · show t.width + t.width - 1 - t.width + 1 = t.width
    omega
  · show t.height + t.height - 1 - t.height + 1 = t.height
    omega
  · show ccorrValue (padImage t t.width t.height) (avgKernel t.width t.height) 0 0 =
      globalMean t
    unfold ccorrValue
    rw [show (avgKernel t.width t.height).height = t.height from rfl,
        show (avgKernel t.width t.height).width = t.width from rfl]
    have hcong : ∀ dy ∈ List.range t.height,
        ((List.range t.width).map fun dx =>
          (padImage t t.width t.height).pix (0 + dx) (0 + dy) *
            (avgKernel t.width t.height).pix dx dy).sum =
        ((List.range t.width).map fun dx =>
          t.pix dx dy * (1 / ((t.width * t.height : Nat) : ℚ))).sum := by
      intro dy hdy
      refine congrArg List.sum (List.map_congr_left ?_)
      intro dx hdx
      rw [List.mem_range] at hdy hdx
      have hpad : (padImage t t.width t.height).pix (0 + dx) (0 + dy) = t.pix dx dy := by
        simp [padImage, Nat.not_le.mpr hdx, Nat.not_le.mpr hdy]
      rw [hpad]
      rfl
    rw [List.map_congr_left hcong]
    have hfun : (fun dy => ((List.range t.width).map fun dx =>
          t.pix dx dy * (1 / ((t.width * t.height : Nat) : ℚ))).sum) =
        fun dy => ((List.range t.width).map fun dx => t.pix dx dy).sum *
          (1 / ((t.width * t.height : Nat) : ℚ)) :=
      funext fun dy => List.sum_map_mul_right _ _ _
    rw [hfun, List.sum_map_mul_right, ← sum_enumeratePixels]
    unfold globalMean
    rw [mul_one_div]

/-- Counterexample to C2 as stated: for the 2×1 template `[2, 0]` the
pre-pass template average is `1` at position (0,0) but `0` at position (1,0),
so it is not a single scalar equal to the global mean (which is `1`)
broadcast to every position. -/
theorem template_local_avg_counterexample :
    (templateLocalAvg tmplMeanCex).pix 0 0 = 1 ∧
    (templateLocalAvg tmplMeanCex).pix 1 0 = 0 ∧
    globalMean tmplMeanCex = 1 ∧
    (templateLocalAvg tmplMeanCex).pix 1 0 ≠ (templateLocalAvg tmplMeanCex).pix 0 0 ∧
    (templateLocalAvg tmplMeanCex).pix 1 0 ≠ globalMean tmplMeanCex := by
  have h0 : (templateLocalAvg tmplMeanCex).pix 0 0 = 1 := by
    norm_num [templateLocalAvg, localAvg, matchTemplateSurface, avgKernel, padImage,
      ccorrValue, tmplMeanCex, List.range_succ]
  have h1 : (templateLocalAvg tmplMeanCex).pix 1 0 = 0 := by
    norm_num [templateLocalAvg, localAvg, matchTemplateSurface, avgKernel, padImage,
      ccorrValue, tmplMeanCex, List.range_succ]
  have hg : globalMean tmplMeanCex = 1 := by
    norm_num [globalMean, GrayImage.enumeratePixels, tmplMeanCex, List.range_succ]
  refine ⟨h0, h1, hg, ?_, ?_⟩
  · rw [h0, h1]
    norm_num
  · rw [h1, hg]
    norm_num

/-- Witness for C2 (amended) at the concrete 2×1 template `[2, 0]`. -/
theorem template_local_avg_origin_mean_witness :
    (templateLocalAvg tmplMeanCex).pix 0 0 = globalMean tmplMeanCex ∧
    globalMean tmplMeanCex = 1 :=
  ⟨(template_local_avg_origin_mean tmplMeanCex (by decide) (by decide)).2.2,
   by norm_num [globalMean, GrayImage.enumeratePixels, tmplMeanCex, List.range_succ]⟩

end ApCv

namespace ApCv

/-- The mean-subtraction pre-pass preserves the dimensions of both the image
and the template. -/
theorem preprocess_dims (image template : GrayImage) (method : MatchTemplateMethod) :
    (preprocess image template method).1.width = image.width ∧
    (preprocess image template method).1.height = image.height ∧
    (preprocess image template method).2.width = template.width ∧
    (preprocess image template method).2.height = template.height := by
  cases method <;> exact ⟨rfl, rfl, rfl, rfl⟩

/-- **C4** (amended): for every kernel `K` and non-empty inputs, the surface
returned by the engine has dimensions `(image_w, image_h)` when
`padding=true` (the zero-extended effective image of size
`(image_w+template_w−1, image_h+template_h−1)` shrinks back by the template
size), and `(image_w−template_w+1, image_h−template_h+1)` when
`padding=false`; with `padding=true` the effective image is the original
zero-extended beyond its bounds. -/
theorem match_template_dims (K : GrayImage → GrayImage → Nat → Nat → ℚ)
    (image template : GrayImage) (method : MatchTemplateMethod)
    (hw : 0 < image.width) (hh : 0 < image.height)
    (htw : 0 < template.width) (hth : 0 < template.height) :
    ((matchTemplateModel K image template method true).width = image.width ∧
     (matchTemplateModel K image template method true).height = image.height) ∧
    (template.width ≤ image.width → template.height ≤ image.height →
      (matchTemplateModel K image template method false).width =
        image.width - template.width + 1 ∧
      (matchTemplateModel K image template method false).height =
        image.height - template.height + 1) ∧
    ((padImage image template.width template.height).width =
      image.width + template.width - 1 ∧
     (padImage image template.width template.height).height =
      image.height + template.height - 1 ∧
     ∀ x y, (padImage image template.width template.height).pix x y =
       if x < image.width ∧ y < image.height then image.pix x y else 0) := by
  obtain ⟨hp1w, hp1h, hp2w, hp2h⟩ := preprocess_dims image template method
  refine ⟨⟨?_, ?_⟩, fun h1 h2 => ⟨?_, ?_⟩, rfl, rfl, ?_⟩
  · have e : (matchTemplateModel K image template method true).width =
        (preprocess image template method).1.width +
          (preprocess image template method).2.width - 1 -
          (preprocess image template method).2.width + 1 := rfl
    rw [e, hp1w, hp2w]
    omega
  · have e : (matchTemplateModel K image template method true).height =
        (preprocess image template method).1.height +
          (preprocess image template method).2.height - 1 -
          (preprocess image template method).2.height + 1 := rfl
    rw [e, hp1h, hp2h]
    omega
  · have e : (matchTemplateModel K image template method false).width =
        (preprocess image template method).1.width -
          (preprocess image template method).2.width + 1 := rfl
    rw [e, hp1w, hp2w]
  · have e : (matchTemplateModel K image template method false).height =
        (preprocess image template method).1.height -
          (preprocess image template method).2.height + 1 := rfl
    rw [e, hp1h, hp2h]
  · intro x y
    show (if x ≥ image.width ∨ y ≥ image.height then 0 else image.pix x y) = _
    by_cases hx : x < image.width
    · by_cases hy : y < image.height
      · rw [if_neg (by omega), if_pos ⟨hx, hy⟩]
      · rw [if_pos (Or.inr (Nat.not_lt.mp hy)), if_neg fun hc => hy hc.2]
    · rw [if_pos (Or.inl (Nat.not_lt.mp hx)), if_neg fun hc => hx hc.1]

/-- Counterexample to C4 as stated: a 3×3 image and 2×2 template under
`padding=true` produce a 3×3 surface, not the claimed
`(image_w+template_w−1) × (image_h+template_h−1) = 4×4`. -/
theorem match_template_padding_dims_counterexample :
    (matchTemplateModel ccorrValue imgDim3 tmplDim2 .CrossCorrelation true).width = 3 ∧
    (matchTemplateModel ccorrValue imgDim3 tmplDim2 .CrossCorrelation true).height = 3 ∧
    imgDim3.width + tmplDim2.width - 1 = 4 ∧ (3 : Nat) ≠ 4 :=
  ⟨rfl, rfl, rfl, by decide⟩

/-- Witness for C4 (amended) at the 3×3 image and 2×2 template. -/
theorem match_template_dims_witness :
    ((matchTemplateModel ccorrValue imgDim3 tmplDim2 .CrossCorrelation true).width = 3 ∧
     (matchTemplateModel ccorrValue imgDim3 tmplDim2 .CrossCorrelation true).height = 3) ∧
    ((matchTemplateModel ccorrValue imgDim3 tmplDim2 .CrossCorrelation false).width = 2 ∧
     (matchTemplateModel ccorrValue imgDim3 tmplDim2 .CrossCorrelation false).height = 2) := by
  have h := match_template_dims ccorrValue imgDim3 tmplDim2 .CrossCorrelation
    (by decide) (by decide) (by decide) (by decide)
  exact ⟨h.1, h.2.1 (by decide) (by decide)⟩

end ApCv

namespace ApCv

/-- **C3** (code evaluation at the failing input): the engine computes
`image_dim - template_dim + 1` on `u32` with no dimension check and no
`DimensionError` anywhere in the crate; for a 2×2 image and a 4×4 template
under `padding=false` the release-mode subtraction wraps to `2^32 − 1`
(and to `0` for a 3-wide template), while for inputs satisfying the
precondition the wrapped value agrees with the intended `iw − tw + 1`. -/
theorem result_dim_underflow_unchecked :
    resultDimWrap 2 4 = 4294967295 ∧
    resultDimWrap 2 3 = 0 ∧
    ∀ iw tw : Nat, 0 < tw → tw ≤ iw → iw < 2 ^ 32 →
      resultDimWrap iw tw = iw - tw + 1 := by
  refine ⟨by decide, by decide, ?_⟩
  intro iw tw htw hle hlt
  unfold resultDimWrap u32_wrap
  omega

/-- **C7** (amended): when the readback completion signal is received but
carries a mapping failure, the engine substitutes a zero-filled vector of
exactly `result_w · result_h` pixels; when the signal is never received, the
`.unwrap()` on the empty channel panics instead of returning a surface. -/
theorem readback_error_zero_fill (data : List ℚ) (rw rh : Nat) :
    readbackResult (some (.error ())) data rw rh =
      .ok (List.replicate (rw * rh) 0) ∧
    (∀ l, readbackResult (some (.error ())) data rw rh = .ok l →
      l.length = rw * rh ∧ ∀ v ∈ l, v = 0) ∧
    readbackResult none data rw rh = .panicked := by
  refine ⟨rfl, ?_, rfl⟩
  intro l hl
  simp only [readbackResult] at hl
  injection hl with h
  subst h
  exact ⟨List.length_replicate _ _, fun v hv => List.eq_of_mem_replicate hv⟩

/-- Counterexample to C7 as stated: when the completion signal is never
received, the readback tail panics on `.unwrap()`; it does not return the
zero-filled surface. -/
theorem readback_no_signal_counterexample :
    readbackResult none [] 3 3 = .panicked ∧
    readbackResult none [] 3 3 ≠ .ok (List.replicate 9 0) :=
  ⟨rfl, by decide⟩

/-- Witness for C7 (amended) at a concrete mapping failure. -/
theorem readback_error_zero_fill_witness :
    readbackResult (some (.error ())) [] 2 3 = .ok (List.replicate 6 0) :=
  (readback_error_zero_fill [] 2 3).1

/-- **C10**: the `Uniforms{image_w, image_h, template_w, template_h}` struct
is written to the uniform buffer exactly when at least one of the four data
buffers was (re)allocated in the current call; consequently two consecutive
calls whose four buffer byte sizes coincide but whose dimensions differ (an
8×4 image followed by a 4×8 one, template 2×2) leave the first call's
dimensions in the uniform buffer for the second dispatch. -/
theorem matcher_prepare_stale_uniforms :
    (∀ (s : MatcherBuffers) (iw ih tw th : Nat),
      (bufferNeedsUpdate s.input_size (iw * ih * 4) ||
       bufferNeedsUpdate s.template_size (tw * th * 4) ||
       bufferNeedsUpdate s.result_size ((iw - tw + 1) * (ih - th + 1) * 4) ||
       bufferNeedsUpdate s.staging_size ((iw - tw + 1) * (ih - th + 1) * 4)) = false →
      (matcherPrepare s iw ih tw th).uniforms = s.uniforms) ∧
    (∀ (s : MatcherBuffers) (iw ih tw th : Nat),
      (bufferNeedsUpdate s.input_size (iw * ih * 4) ||
       bufferNeedsUpdate s.template_size (tw * th * 4) ||
       bufferNeedsUpdate s.result_size ((iw - tw + 1) * (ih - th + 1) * 4) ||
       bufferNeedsUpdate s.staging_size ((iw - tw + 1) * (ih - th + 1) * 4)) = true →
      (matcherPrepare s iw ih tw th).uniforms = some ⟨iw, ih, tw, th⟩) ∧
    (matcherPrepare (matcherPrepare .initial 8 4 2 2) 4 8 2 2).uniforms =
      some ⟨8, 4, 2, 2⟩ ∧
    (matcherPrepare (matcherPrepare .initial 8 4 2 2) 4 8 2 2).uniforms ≠
      some ⟨4, 8, 2, 2⟩ := by
  refine ⟨?_, ?_, by decide, by decide⟩
  · intro s iw ih tw th h
    show (if (bufferNeedsUpdate s.input_size (iw * ih * 4) ||
       bufferNeedsUpdate s.template_size (tw * th * 4) ||
       bufferNeedsUpdate s.result_size ((iw - tw + 1) * (ih - th + 1) * 4) ||
       bufferNeedsUpdate s.staging_size ((iw - tw + 1) * (ih - th + 1) * 4)) = true
      then some ⟨iw, ih, tw, th⟩ else s.uniforms) = s.uniforms
    rw [h]
    simp
  · intro s iw ih tw th h
    show (if (bufferNeedsUpdate s.input_size (iw * ih * 4) ||
       bufferNeedsUpdate s.template_size (tw * th * 4) ||
       bufferNeedsUpdate s.result_size ((iw - tw + 1) * (ih - th + 1) * 4) ||
       bufferNeedsUpdate s.staging_size ((iw - tw + 1) * (ih - th + 1) * 4)) = true
      then some ⟨iw, ih, tw, th⟩ else s.uniforms) = some ⟨iw, ih, tw, th⟩
    rw [h]
    simp

/-- Witness for C10 at the concrete 8×4-then-4×8 call pair. -/
theorem matcher_prepare_stale_uniforms_witness :
    (matcherPrepare (matcherPrepare .initial 8 4 2 2) 4 8 2 2).uniforms =
      (matcherPrepare .initial 8 4 2 2).uniforms ∧
    (matcherPrepare .initial 8 4 2 2).uniforms = some ⟨8, 4, 2, 2⟩ :=
  ⟨matcher_prepare_stale_uniforms.1 (matcherPrepare .initial 8 4 2 2) 4 8 2 2 (by decide),
   matcher_prepare_stale_uniforms.2.1 .initial 8 4 2 2 (by decide)⟩

end ApCv

namespace ApCv

/-- Witness for C3's evaluation theorem at an in-precondition input. -/
theorem result_dim_underflow_unchecked_witness :
    0 < 2 ∧ resultDimWrap 4 2 = 4 - 2 + 1 :=
  ⟨by decide, result_dim_underflow_unchecked.2.2 4 2 (by decide) (by decide) (by decide)⟩

/-- Witness for C8 at a concrete surface, method and threshold. -/
theorem multi_matcher_refilter_identity_witness :
    (MultiMatcher.match_template mtId surfPeaks33 tmpl1 optsCC10).result =
      find_matches surfPeaks33 1 1 .CrossCorrelation 10 :=
  (multi_matcher_refilter_identity mtId surfPeaks33 tmpl1 optsCC10).2

end ApCv
